import Mathlib

/-!
Verification of the wallet_system balance-mutation core.

The Python source (src/wallet_system/wallet_api) is shallowly embedded:
Decimal amounts become exact rationals, the Django ORM rows for one
wallet become an explicit record threaded through the operations, and
each database write consumes one tick of a monotone counter that models
the auto_now and auto_now_add timestamps. The database scan behind the
Meta ordering by descending timestamp is modelled as a stable sort over
insertion order.
-/

namespace WalletSystem

/-- Transaction type, from Transaction.TRANSACTION_TYPES in models.py. -/
inductive TxnType
  | CREDIT
  | DEBIT
deriving DecidableEq, Repr

/-- Display name of a transaction type, as stored in the
transaction_type column of models.py. -/
def typeName : TxnType → String
  | .CREDIT => "CREDIT"
  | .DEBIT => "DEBIT"

/-- A row of the Transaction table (models.py, class Transaction). The
wallet foreign key is implicit because we model one wallet at a time. -/
structure Txn where
  id : Nat
  amount : Rat
  transaction_type : TxnType
  description : String
  timestamp : Nat
deriving DecidableEq, Repr

/-- Signed amount of a transaction: CREDIT counts positive, DEBIT
negative. -/
def signedAmount (t : Txn) : Rat :=
  match t.transaction_type with
  | .CREDIT => t.amount
  | .DEBIT => -t.amount

/-- Sum of the signed amounts of a transaction log. -/
def logSum (log : List Txn) : Rat :=
  (log.map signedAmount).sum

/-- The rows for one wallet (models.py, classes Wallet and Transaction):
the balance and updated_at columns, the transaction rows in insertion
order (oldest first), the autoincrement id counter, and the clock used
for auto_now and auto_now_add timestamps. -/
structure LedgerState where
  balance : Rat
  updated_at : Nat
  log : List Txn
  nextId : Nat
  now : Nat
deriving DecidableEq, Repr

/-- The wallet created for a fresh user: balance 0, empty log. -/
def initialWallet : LedgerState :=
  { balance := 0, updated_at := 0, log := [], nextId := 1, now := 1 }

/-- Wallet.add_funds (models.py lines 39-50): balance += amount, save
(refreshing updated_at), then create a CREDIT Transaction row. -/
def add_funds (s : LedgerState) (amount : Rat) (description : String) : LedgerState :=
  let desc := if description = "" then "Added Rs." ++ toString amount ++ " to wallet"
              else description
  let s1 : LedgerState :=
    { s with balance := s.balance + amount, updated_at := s.now, now := s.now + 1 }
  { s1 with
    log := s1.log ++ [{ id := s1.nextId, amount := amount, transaction_type := .CREDIT,
                        description := desc, timestamp := s1.now }],
    nextId := s1.nextId + 1,
    now := s1.now + 1 }

/-- Wallet.deduct_funds (models.py lines 52-68): when balance is at
least the amount, balance -= amount, save, create a DEBIT Transaction
row and return True; otherwise return False without touching anything. -/
def deduct_funds (s : LedgerState) (amount : Rat) (description : String) :
    Bool × LedgerState :=
  if s.balance ≥ amount then
    let desc := if description = "" then "Deducted Rs." ++ toString amount ++ " from wallet"
                else description
    let s1 : LedgerState :=
      { s with balance := s.balance - amount, updated_at := s.now, now := s.now + 1 }
    (true,
      { s1 with
        log := s1.log ++ [{ id := s1.nextId, amount := amount, transaction_type := .DEBIT,
                            description := desc, timestamp := s1.now }],
        nextId := s1.nextId + 1,
        now := s1.now + 1 })
  else
    (false, s)

/-- Insertion step of a deterministic sort by descending timestamp:
walk past strictly newer entries, stop before the first entry that is
not newer. It is stable (entries with equal timestamps keep their
insertion order), which is a choice of this model, not a guarantee of
the code: neither Django nor SQL fixes the order of rows tied on the
order_by key. -/
def insertByTs (t : Txn) : List Txn → List Txn
  | [] => [t]
  | u :: us => if t.timestamp < u.timestamp then u :: insertByTs t us else t :: u :: us

/-- One admissible result of the order_by on descending timestamp used
by Transaction.Meta (models.py lines 85-86) and
UserTransactionsView.get (views.py line 594), applied to the rows in
insertion order: a deterministic stand-in used where the order of
timestamp ties is irrelevant (a strictly newest row, permutation
facts). The code guarantees only what dbOrdering states. -/
def sortNewestFirst : List Txn → List Txn
  | [] => []
  | t :: ts => insertByTs t (sortNewestFirst ts)

/-- What the order_by on descending timestamp guarantees about the row
order the database returns: some permutation of the rows that is
non-strictly descending in timestamp. The relative order of rows with
equal timestamps is unspecified: models.py line 86 and views.py line
594 add no id tie-break and SQL fixes no order between tied rows. -/
def dbOrdering (rows out : List Txn) : Prop :=
  out.Perm rows ∧ out.Pairwise (fun a b => b.timestamp ≤ a.timestamp)

/-- Target ordering of the history listing: strictly newer first, ties
between equal timestamps broken by ascending id. -/
def newerFirst (a b : Txn) : Prop :=
  b.timestamp < a.timestamp ∨ (a.timestamp = b.timestamp ∧ a.id < b.id)

/-- Two-decimal-places test on an exact rational value: the check on
the as_tuple exponent in validators.py line 21, read on the numeric
value (v has at most 2 fractional digits exactly when 100 * v is an
integer). -/
def hasAtMostTwoDp (v : Rat) : Bool :=
  (v * 100).den == 1

/-- WalletValidators.validate_amount (validators.py lines 8-24), with
the settings fallbacks MIN_TRANSACTION_AMOUNT 0.01 and
MAX_TRANSACTION_AMOUNT 10000.00 used by getattr. -/
def validate_amount (v : Rat) : Bool :=
  if v < 0.01 then false
  else if v > 10000.00 then false
  else if !hasAtMostTwoDp v then false
  else true

/-- Field-level checks of the amount DecimalField of
UpdateWalletSerializer (serializers.py lines 53-58): at most 12 digits
in total, at most 2 decimal places, hence at most 10 whole digits. -/
def decimalFieldOk (v : Rat) : Bool :=
  hasAtMostTwoDp v && decide (|v| < 10 ^ 10)

/-- UpdateWalletSerializer.validate_amount (serializers.py lines
70-76): positive and at most 999999.99. -/
def serializer_validate_amount (v : Rat) : Bool :=
  if v ≤ 0 then false
  else if v > 999999.99 then false
  else true

/-- The complete amount validation run by UpdateWalletSerializer
is_valid: field checks, then the validators list, then the
validate_amount method. -/
def validateAmount (v : Rat) : Bool :=
  decimalFieldOk v && validate_amount v && serializer_validate_amount v

/-- The response of UpdateWalletView.put as seen by the caller
(views.py lines 418-476), restricted to the fields the claims are
about. -/
inductive PutResult
  | success (previous_balance new_balance : Rat) (transaction_id : Option Nat)
  | insufficientFunds (current_balance requested_amount shortfall : Rat)
  | invalidRequest
deriving DecidableEq, Repr

/-- The lookup of the latest transaction in views.py line 456: first()
of the wallet transactions under the Meta ordering by descending
timestamp (models.py lines 85-86). -/
def latestTransactionId (log : List Txn) : Option Nat :=
  match sortNewestFirst log with
  | [] => none
  | t :: _ => some t.id

/-- Body of UpdateWalletView.put after successful serializer
validation (views.py lines 429-470): reads previous_balance, then for
CREDIT calls add_funds, for DEBIT checks the balance against the
amount and returns the insufficient-funds response before any
mutation, otherwise calls deduct_funds; finally reports the refreshed
balance and the id of the latest transaction. -/
def updateWallet (s : LedgerState) (amount : Rat) (transaction_type : TxnType)
    (description : String) : PutResult × LedgerState :=
  let previous_balance := s.balance
  match transaction_type with
  | .CREDIT =>
      let s1 := add_funds s amount
        (if description = "" then "Added $" ++ toString amount ++ " to wallet" else description)
      (.success previous_balance s1.balance (latestTransactionId s1.log), s1)
  | .DEBIT =>
      if s.balance < amount then
        (.insufficientFunds s.balance amount (amount - s.balance), s)
      else
        let s1 := (deduct_funds s amount
          (if description = "" then "Deducted $" ++ toString amount ++ " from wallet"
           else description)).2
        (.success previous_balance s1.balance (latestTransactionId s1.log), s1)

/-- UpdateWalletView.put (views.py lines 418-476): the serializer is
validated first and a validation failure returns a 400 response before
the wallet is read or changed. The user lookup is modelled as already
resolved. -/
def put (s : LedgerState) (amount : Rat) (transaction_type : TxnType)
    (description : String) : PutResult × LedgerState :=
  if validateAmount amount then updateWallet s amount transaction_type description
  else (.invalidRequest, s)

/-- The limit query parameter as it reaches views.py line 583: absent,
a string that int() rejects, or a string that int() parses to n. -/
inductive LimitParam
  | absent
  | unparsable
  | intValue (n : Int)
deriving DecidableEq, Repr

/-- Parsing of the limit parameter (views.py lines 583-590): absent
falls back to the default string for 50, a parse failure falls back to
50, and a non-positive parsed value falls back to 50. -/
def effectiveLimit : LimitParam → Int
  | .absent => 50
  | .unparsable => 50
  | .intValue n => if n ≤ 0 then 50 else n

/-- The summary object of UserTransactionsView.get (views.py lines
618-624). -/
structure Summary where
  total_transactions : Nat
  filtered_count : Nat
  total_credits : Rat
  total_debits : Rat
  net_balance : Rat
deriving DecidableEq, Repr

/-- Sum of the amounts of the CREDIT transactions of a log (views.py
line 604). -/
def creditTotal (log : List Txn) : Rat :=
  ((log.filter (fun t => typeName t.transaction_type == "CREDIT")).map (fun t => t.amount)).sum

/-- Sum of the amounts of the DEBIT transactions of a log (views.py
line 605). -/
def debitTotal (log : List Txn) : Rat :=
  ((log.filter (fun t => typeName t.transaction_type == "DEBIT")).map (fun t => t.amount)).sum

/-- UserTransactionsView.get (views.py lines 578-630): orders the
wallet transactions newest first, applies the optional type filter and
the limit to the returned list, and computes the summary totals over
the unfiltered query. Returns the summary and the returned transaction
list. -/
def getTransactions (log : List Txn) (transaction_type_param : String)
    (limit_param : LimitParam) : Summary × List Txn :=
  let transaction_type := transaction_type_param.toUpper
  let limit := effectiveLimit limit_param
  let transactions_query := sortNewestFirst log
  let filtered_transactions :=
    if transaction_type ≠ "" ∧ (transaction_type = "CREDIT" ∨ transaction_type = "DEBIT") then
      transactions_query.filter (fun t => typeName t.transaction_type == transaction_type)
    else transactions_query
  let transactions := filtered_transactions.take limit.toNat
  let total_credits := creditTotal transactions_query
  let total_debits := debitTotal transactions_query
  ({ total_transactions := transactions_query.length,
     filtered_count := transactions.length,
     total_credits := total_credits,
     total_debits := total_debits,
     net_balance := total_credits - total_debits }, transactions)

/-- UserTransactionsView.get (views.py lines 578-630) as a function of
the row order the database returned for the wallet transactions under
the descending-timestamp order_by: the same body as getTransactions
with the ordered rows supplied, so that facts about the view can be
stated for every admissible database ordering. -/
def getTransactionsFrom (transactions_query : List Txn) (transaction_type_param : String)
    (limit_param : LimitParam) : Summary × List Txn :=
  let transaction_type := transaction_type_param.toUpper
  let limit := effectiveLimit limit_param
  let filtered_transactions :=
    if transaction_type ≠ "" ∧ (transaction_type = "CREDIT" ∨ transaction_type = "DEBIT") then
      transactions_query.filter (fun t => typeName t.transaction_type == transaction_type)
    else transactions_query
  let transactions := filtered_transactions.take limit.toNat
  let total_credits := creditTotal transactions_query
  let total_debits := debitTotal transactions_query
  ({ total_transactions := transactions_query.length,
     filtered_count := transactions.length,
     total_credits := total_credits,
     total_debits := total_debits,
     net_balance := total_credits - total_debits }, transactions)

/-- A row of the User table (models.py lines 8-29). -/
structure UserRec where
  id : Nat
  name : String
  email : String
  phone : String
deriving DecidableEq, Repr

/-- A row of the Wallet table, reduced to its owner and balance. -/
structure WalletRec where
  user_id : Nat
  balance : Rat
deriving DecidableEq, Repr

/-- The user and wallet tables. -/
structure RegistryState where
  users : List UserRec
  wallets : List WalletRec
deriving DecidableEq, Repr

/-- User creation through UserListView.post (views.py lines 314-329):
UserCreateSerializer.validate_email rejects a duplicate email
(serializers.py lines 91-95); on success serializer.save inserts the
user row and the User.save hook (models.py lines 21-26) runs
get_or_create on the wallet, inserting a wallet with the default
balance 0 when the user has none. freshId models the autoincrement
primary key of the new row. -/
def createUser (st : RegistryState) (name email phone : String) (freshId : Nat) :
    Option RegistryState :=
  if st.users.any (fun u => u.email == email) then none
  else
    let users := st.users ++ [{ id := freshId, name := name, email := email, phone := phone }]
    let wallets :=
      if st.wallets.any (fun w => w.user_id == freshId) then st.wallets
      else st.wallets ++ [{ user_id := freshId, balance := 0 }]
    some { users := users, wallets := wallets }

/-- Progress of one in-flight DEBIT request against the shared wallet
row. The request first loads the wallet row into Python memory
(views.py lines 420 and 434, before the atomic block and with no row
lock), then checks and commits using that loaded value: the comparison
at views.py line 444 and the re-check inside deduct_funds both read
the in-memory balance, and save writes back the in-memory value. -/
inductive DebitPhase
  | start
  | loaded (b : Rat)
  | finished (ok : Bool)
deriving DecidableEq, Repr

/-- One concurrent debit request: its amount and its progress. -/
structure DebitRequest where
  amount : Rat
  phase : DebitPhase
deriving DecidableEq, Repr

/-- Shared wallet row plus two concurrent debit requests. -/
structure RaceState where
  balance : Rat
  log : List Txn
  reqA : DebitRequest
  reqB : DebitRequest
deriving DecidableEq, Repr

/-- One atomic step of a debit request against the shared row: the
load step reads the committed balance; the commit step checks the
loaded balance and, when sufficient, writes back the stale difference
and appends the DEBIT row. -/
def stepRequest (bal : Rat) (log : List Txn) (r : DebitRequest) :
    Rat × List Txn × DebitRequest :=
  match r.phase with
  | .start => (bal, log, { r with phase := .loaded bal })
  | .loaded b =>
      if b < r.amount then
        (bal, log, { r with phase := .finished false })
      else
        (b - r.amount,
         log ++ [{ id := log.length, amount := r.amount, transaction_type := .DEBIT,
                   description := "", timestamp := 0 }],
         { r with phase := .finished true })
  | .finished _ => (bal, log, r)

/-- Run one step of the scheduled request (true for A, false for B). -/
def stepRace (s : RaceState) (which : Bool) : RaceState :=
  if which then
    let r := stepRequest s.balance s.log s.reqA
    { s with balance := r.1, log := r.2.1, reqA := r.2.2 }
  else
    let r := stepRequest s.balance s.log s.reqB
    { s with balance := r.1, log := r.2.1, reqB := r.2.2 }

/-- Run a schedule of interleaved steps. -/
def runRace (s : RaceState) (sched : List Bool) : RaceState :=
  sched.foldl stepRace s

/-- The central ledger invariant of the spec: the balance equals the
sum of the signed transaction amounts. -/
def balInv (s : LedgerState) : Prop :=
  s.balance = logSum s.log

/-- One wallet operation as issued through the API. -/
inductive Op
  | credit (amount : Rat) (description : String)
  | debit (amount : Rat) (description : String)
deriving DecidableEq, Repr

/-- Apply one operation to the wallet through UpdateWalletView.put. -/
def applyOp (s : LedgerState) : Op → LedgerState
  | .credit a d => (put s a .CREDIT d).2
  | .debit a d => (put s a .DEBIT d).2

/-- The description the view passes to add_funds (views.py line 441). -/
def viewCreditDesc (a : Rat) (d : String) : String :=
  if d = "" then "Added $" ++ toString a ++ " to wallet" else d

/-- The description the view passes to deduct_funds (views.py line 452). -/
def viewDebitDesc (a : Rat) (d : String) : String :=
  if d = "" then "Deducted $" ++ toString a ++ " from wallet" else d

/-- The CREDIT transaction row appended by a credit request entering
add_funds with the view description. -/
def creditTxn (s : LedgerState) (a : Rat) (d : String) : Txn :=
  { id := s.nextId, amount := a, transaction_type := .CREDIT,
    description := if viewCreditDesc a d = "" then "Added Rs." ++ toString a ++ " to wallet"
                   else viewCreditDesc a d,
    timestamp := s.now + 1 }

/-- The DEBIT transaction row appended by a successful debit request
entering deduct_funds with the view description. -/
def debitTxn (s : LedgerState) (a : Rat) (d : String) : Txn :=
  { id := s.nextId, amount := a, transaction_type := .DEBIT,
    description := if viewDebitDesc a d = "" then "Deducted Rs." ++ toString a ++ " from wallet"
                   else viewDebitDesc a d,
    timestamp := s.now + 1 }

theorem insertByTs_perm (t : Txn) (l : List Txn) : (insertByTs t l).Perm (t :: l) := by
  induction l with
  | nil => exact List.Perm.refl _
  | cons u us ih =>
    by_cases h : t.timestamp < u.timestamp
    · rw [insertByTs, if_pos h]
      exact (ih.cons u).trans (List.Perm.swap t u us)
    · rw [insertByTs, if_neg h]

theorem mem_insertByTs {u t : Txn} {l : List Txn} :
    u ∈ insertByTs t l ↔ u = t ∨ u ∈ l := by
  rw [(insertByTs_perm t l).mem_iff, List.mem_cons]

theorem sortNewestFirst_perm (l : List Txn) : (sortNewestFirst l).Perm l := by
  induction l with
  | nil => exact List.Perm.refl _
  | cons t ts ih => exact (insertByTs_perm t _).trans (ih.cons t)

theorem insertByTs_pairwise {t : Txn} {l : List Txn} (hl : l.Pairwise newerFirst)
    (hid : ∀ u ∈ l, t.id < u.id) : (insertByTs t l).Pairwise newerFirst := by
  induction l with
  | nil => simp [insertByTs, newerFirst]
  | cons u us ih =>
    rcases List.pairwise_cons.mp hl with ⟨hu, hus⟩
    by_cases h : t.timestamp < u.timestamp
    · rw [insertByTs, if_pos h]
      refine List.pairwise_cons.mpr ⟨?_, ih hus (fun v hv => hid v (List.mem_cons_of_mem u hv))⟩
      intro v hv
      rcases mem_insertByTs.mp hv with rfl | hv'
      · exact Or.inl h
      · exact hu v hv'
    · rw [insertByTs, if_neg h]
      refine List.pairwise_cons.mpr ⟨?_, hl⟩
      intro v hv
      have hvid : t.id < v.id := hid v hv
      have hvts : v.timestamp ≤ t.timestamp := by
        rcases List.mem_cons.mp hv with rfl | hv'
        · omega
        · rcases hu v hv' with hlt | ⟨heq, _⟩ <;> omega
      rcases Nat.lt_or_eq_of_le hvts with h2 | h2
      · exact Or.inl h2
      · exact Or.inr ⟨h2.symm, hvid⟩

theorem sortNewestFirst_pairwise {l : List Txn}
    (hids : l.Pairwise (fun a b => a.id < b.id)) :
    (sortNewestFirst l).Pairwise newerFirst := by
  induction l with
  | nil => simp [sortNewestFirst]
  | cons t ts ih =>
    rcases List.pairwise_cons.mp hids with ⟨hid, hts⟩
    exact insertByTs_pairwise (ih hts)
      (fun u hu => hid u ((sortNewestFirst_perm ts).mem_iff.mp hu))

/-- Appending a strictly newest transaction puts it at the head of the
sorted view. -/
theorem sortNewestFirst_append_newest (l : List Txn) (t : Txn)
    (h : ∀ u ∈ l, u.timestamp < t.timestamp) :
    sortNewestFirst (l ++ [t]) = t :: sortNewestFirst l := by
  induction l with
  | nil => rfl
  | cons x xs ih =>
    have hx : x.timestamp < t.timestamp := h x (List.mem_cons_self x xs)
    have hxs := ih (fun u hu => h u (List.mem_cons_of_mem x hu))
    show insertByTs x (sortNewestFirst (xs ++ [t])) = t :: insertByTs x (sortNewestFirst xs)
    rw [hxs, insertByTs, if_pos hx]

theorem insertByTs_sorted {t : Txn} {l : List Txn}
    (hl : l.Pairwise (fun a b => b.timestamp ≤ a.timestamp)) :
    (insertByTs t l).Pairwise (fun a b => b.timestamp ≤ a.timestamp) := by
  induction l with
  | nil => simp [insertByTs]
  | cons u us ih =>
    rcases List.pairwise_cons.mp hl with ⟨hu, hus⟩
    by_cases h : t.timestamp < u.timestamp
    · rw [insertByTs, if_pos h]
      refine List.pairwise_cons.mpr ⟨?_, ih hus⟩
      intro v hv
      rcases mem_insertByTs.mp hv with rfl | hv'
      · exact Nat.le_of_lt h
      · exact hu v hv'
    · rw [insertByTs, if_neg h]
      refine List.pairwise_cons.mpr ⟨?_, hl⟩
      intro v hv
      rcases List.mem_cons.mp hv with rfl | hv'
      · omega
      · have hvu := hu v hv'
        omega

/-- The deterministic stand-in sort is one admissible database
ordering. -/
theorem dbOrdering_sortNewestFirst (l : List Txn) : dbOrdering l (sortNewestFirst l) := by
  refine ⟨sortNewestFirst_perm l, ?_⟩
  induction l with
  | nil => simp [sortNewestFirst]
  | cons t ts ih => exact insertByTs_sorted ih

/-- The query over the deterministic stand-in ordering is exactly
getTransactions. -/
theorem getTransactions_eq_from (log : List Txn) (ttp : String) (lp : LimitParam) :
    getTransactions log ttp lp = getTransactionsFrom (sortNewestFirst log) ttp lp := rfl

theorem validate_amount_iff (v : Rat) :
    validate_amount v = true ↔ 0.01 ≤ v ∧ v ≤ 10000.00 ∧ (v * 100).den = 1 := by
  unfold validate_amount hasAtMostTwoDp
  split_ifs with h1 h2 h3
  · simp only [Bool.false_eq_true, false_iff]
    intro h
    exact absurd h1 (not_lt.mpr h.1)
  · simp only [Bool.false_eq_true, false_iff]
    intro h
    exact absurd h2 (not_lt.mpr h.2.1)
  · simp only [Bool.false_eq_true, false_iff]
    simp only [Bool.not_eq_true', beq_eq_false_iff_ne, ne_eq] at h3
    intro h
    exact h3 h.2.2
  · simp only [true_iff]
    simp only [Bool.not_eq_true', beq_eq_false_iff_ne, ne_eq, not_not] at h3
    exact ⟨not_lt.mp h1, not_lt.mp h2, h3⟩

theorem decimalFieldOk_iff (v : Rat) :
    decimalFieldOk v = true ↔ (v * 100).den = 1 ∧ |v| < 10 ^ 10 := by
  simp [decimalFieldOk, hasAtMostTwoDp]

theorem serializer_validate_amount_iff (v : Rat) :
    serializer_validate_amount v = true ↔ 0 < v ∧ v ≤ 999999.99 := by
  unfold serializer_validate_amount
  split_ifs with h1 h2
  · simp only [Bool.false_eq_true, false_iff]
    intro h
    exact absurd h1 (not_le.mpr h.1)
  · simp only [Bool.false_eq_true, false_iff]
    intro h
    exact absurd h2 (not_lt.mpr h.2)
  · simp only [true_iff]
    exact ⟨not_le.mp h1, not_lt.mp h2⟩

/-- The complete amount validation accepts exactly the amounts between
0.01 and 10000.00 inclusive with at most 2 decimal places. -/
theorem validateAmount_iff (v : Rat) :
    validateAmount v = true ↔ 0.01 ≤ v ∧ v ≤ 10000.00 ∧ (v * 100).den = 1 := by
  unfold validateAmount
  simp only [Bool.and_eq_true, decimalFieldOk_iff, validate_amount_iff,
    serializer_validate_amount_iff]
  constructor
  · rintro ⟨⟨-, hB⟩, -⟩
    exact hB
  · rintro ⟨hmin, hmax, hden⟩
    have hv0 : (0 : Rat) < v := lt_of_lt_of_le (by norm_num) hmin
    refine ⟨⟨⟨hden, ?_⟩, hmin, hmax, hden⟩, hv0, ?_⟩
    · rw [abs_of_pos hv0]
      calc v ≤ 10000.00 := hmax
        _ < 10 ^ 10 := by norm_num
    · calc v ≤ 10000.00 := hmax
      _ ≤ 999999.99 := by norm_num

theorem add_funds_eq (s : LedgerState) (a : Rat) (d : String) :
    add_funds s a d =
      { balance := s.balance + a, updated_at := s.now,
        log := s.log ++ [{ id := s.nextId, amount := a, transaction_type := .CREDIT,
                           description := if d = "" then "Added Rs." ++ toString a ++ " to wallet"
                                          else d,
                           timestamp := s.now + 1 }],
        nextId := s.nextId + 1, now := s.now + 2 } := rfl

theorem deduct_funds_eq_of_le (s : LedgerState) (a : Rat) (d : String)
    (h : a ≤ s.balance) :
    deduct_funds s a d =
      (true,
        { balance := s.balance - a, updated_at := s.now,
          log := s.log ++ [{ id := s.nextId, amount := a, transaction_type := .DEBIT,
                             description := if d = "" then
                                 "Deducted Rs." ++ toString a ++ " from wallet"
                               else d,
                             timestamp := s.now + 1 }],
          nextId := s.nextId + 1, now := s.now + 2 }) := by
  unfold deduct_funds
  rw [if_pos h]

/-- State equation for a validated credit request. -/
theorem put_credit_eq (s : LedgerState) (a : Rat) (d : String)
    (hv : validateAmount a = true) :
    (put s a .CREDIT d).2 =
      { balance := s.balance + a, updated_at := s.now,
        log := s.log ++ [creditTxn s a d],
        nextId := s.nextId + 1, now := s.now + 2 } := by
  unfold put
  rw [if_pos hv]
  simp only [updateWallet, add_funds_eq, creditTxn, viewCreditDesc]

/-- State equation for a validated debit request against a sufficient
balance. -/
theorem put_debit_eq (s : LedgerState) (a : Rat) (d : String)
    (hv : validateAmount a = true) (hge : a ≤ s.balance) :
    (put s a .DEBIT d).2 =
      { balance := s.balance - a, updated_at := s.now,
        log := s.log ++ [debitTxn s a d],
        nextId := s.nextId + 1, now := s.now + 2 } := by
  unfold put
  rw [if_pos hv]
  simp only [updateWallet]
  rw [if_neg (not_lt.mpr hge)]
  rw [deduct_funds_eq_of_le _ _ _ hge]
  simp only [debitTxn, viewDebitDesc]

theorem latestTransactionId_append (log : List Txn) (t : Txn)
    (h : ∀ u ∈ log, u.timestamp < t.timestamp) :
    latestTransactionId (log ++ [t]) = some t.id := by
  rw [latestTransactionId, sortNewestFirst_append_newest log t h]

theorem logSum_append (l1 l2 : List Txn) :
    logSum (l1 ++ l2) = logSum l1 + logSum l2 := by
  simp [logSum]

theorem creditTotal_perm {l l' : List Txn} (h : l.Perm l') :
    creditTotal l = creditTotal l' := by
  unfold creditTotal
  exact ((h.filter _).map _).sum_eq

theorem debitTotal_perm {l l' : List Txn} (h : l.Perm l') :
    debitTotal l = debitTotal l' := by
  unfold debitTotal
  exact ((h.filter _).map _).sum_eq

theorem balInv_applyOp {s : LedgerState} (h : balInv s) (op : Op) :
    balInv (applyOp s op) := by
  cases op with
  | credit a d =>
    show balInv (put s a .CREDIT d).2
    unfold put
    by_cases hv : validateAmount a = true
    · rw [if_pos hv]
      show balInv (add_funds s a _)
      rw [add_funds_eq]
      unfold balInv at h ⊢
      rw [logSum_append, h]
      simp [logSum, signedAmount]
    · rw [if_neg hv]
      exact h
  | debit a d =>
    show balInv (put s a .DEBIT d).2
    unfold put
    by_cases hv : validateAmount a = true
    · rw [if_pos hv]
      show balInv (updateWallet s a .DEBIT d).2
      simp only [updateWallet]
      by_cases hlt : s.balance < a
      · rw [if_pos hlt]
        exact h
      · rw [if_neg hlt]
        show balInv (deduct_funds s a _).2
        rw [deduct_funds_eq_of_le _ _ _ (not_lt.mp hlt)]
        unfold balInv at h ⊢
        rw [logSum_append, h]
        simp [logSum, signedAmount, sub_eq_add_neg]
    · rw [if_neg hv]
      exact h

theorem balInv_foldl (ops : List Op) :
    ∀ s : LedgerState, balInv s → balInv (ops.foldl applyOp s) := by
  induction ops with
  | nil => exact fun s h => h
  | cons op rest ih => exact fun s h => ih _ (balInv_applyOp h op)

theorem latest_after_add_funds (s : LedgerState) (a : Rat) (d : String)
    (hclk : ∀ t ∈ s.log, t.timestamp < s.now) :
    latestTransactionId (add_funds s a d).log = some s.nextId := by
  rw [add_funds_eq]
  exact latestTransactionId_append _ _ (fun u hu => Nat.lt_succ_of_lt (hclk u hu))

/-- C1: for every wallet whose balance equals the sum of its signed
transaction amounts and every sequence of credit and debit operations
applied through the API, the balance equals the sum of the signed
amounts of the logged transactions after every operation, i.e. after
every prefix of the sequence (CREDIT amounts counted positive, DEBIT
amounts counted negative). -/
theorem balance_equals_signed_sum (s : LedgerState) (h : s.balance = logSum s.log)
    (ops : List Op) (n : Nat) :
    ((ops.take n).foldl applyOp s).balance =
      logSum ((ops.take n).foldl applyOp s).log :=
  balInv_foldl (ops.take n) s h

/-- Witness for the balance invariant at a concrete wallet and a
concrete operation sequence. -/
theorem balance_equals_signed_sum_witness :
    (([Op.credit 5 "x", Op.debit 3 "y"].take 2).foldl applyOp initialWallet).balance =
      logSum (([Op.credit 5 "x", Op.debit 3 "y"].take 2).foldl applyOp initialWallet).log :=
  balance_equals_signed_sum initialWallet rfl [Op.credit 5 "x", Op.debit 3 "y"] 2

/-- C2: a debit request with a validated amount exceeding the current
balance returns the insufficient-funds error carrying the current
balance, the requested amount and the shortfall (requested minus
current), and the check happens before any mutation: the returned
state is exactly the input state, so the balance is unchanged and no
transaction is appended. -/
theorem debit_insufficient_funds (s : LedgerState) (a : Rat) (d : String)
    (hv : validateAmount a = true) (h : s.balance < a) :
    put s a .DEBIT d = (.insufficientFunds s.balance a (a - s.balance), s) := by
  unfold put
  rw [if_pos hv]
  simp only [updateWallet]
  rw [if_pos h]

/-- Witness for the insufficient-funds theorem at a concrete wallet
and amount. -/
theorem debit_insufficient_funds_witness :
    put { balance := 10, updated_at := 0, log := [], nextId := 1, now := 1 } 80 .DEBIT "y" =
      (.insufficientFunds 10 80 (80 - 10),
       { balance := 10, updated_at := 0, log := [], nextId := 1, now := 1 }) :=
  debit_insufficient_funds _ 80 "y"
    ((validateAmount_iff 80).mpr (by norm_num [Rat.den]))
    (by norm_num)

/-- C3: with the user resolved and a validated amount, the credit
operation succeeds: it increases the balance by exactly the amount,
appends exactly one CREDIT transaction to the log, and returns the
previous balance, the new balance and the id of the appended
transaction. -/
theorem credit_succeeds (s : LedgerState) (a : Rat) (d : String)
    (hv : validateAmount a = true) (hclk : ∀ t ∈ s.log, t.timestamp < s.now) :
    (put s a .CREDIT d).1 = .success s.balance (s.balance + a) (some s.nextId) ∧
    (put s a .CREDIT d).2.balance = s.balance + a ∧
    ∃ txn : Txn, (put s a .CREDIT d).2.log = s.log ++ [txn] ∧
      txn.id = s.nextId ∧ txn.transaction_type = .CREDIT ∧ txn.amount = a := by
  have hp : put s a .CREDIT d = updateWallet s a .CREDIT d := by
    unfold put
    rw [if_pos hv]
  rw [hp]
  simp only [updateWallet]
  refine ⟨?_, ?_, ?_⟩
  · rw [latest_after_add_funds s a _ hclk, add_funds_eq]
  · rw [add_funds_eq]
  · rw [add_funds_eq]
    exact ⟨_, rfl, rfl, rfl, rfl⟩

/-- Witness for the credit theorem at a concrete wallet and amount. -/
theorem credit_succeeds_witness :
    (put initialWallet 5 .CREDIT "x").1 =
      .success initialWallet.balance (initialWallet.balance + 5) (some initialWallet.nextId) ∧
    (put initialWallet 5 .CREDIT "x").2.balance = initialWallet.balance + 5 ∧
    ∃ txn : Txn, (put initialWallet 5 .CREDIT "x").2.log = initialWallet.log ++ [txn] ∧
      txn.id = initialWallet.nextId ∧ txn.transaction_type = .CREDIT ∧ txn.amount = 5 :=
  credit_succeeds initialWallet 5 "x"
    ((validateAmount_iff 5).mpr (by norm_num [Rat.den]))
    (fun t ht => absurd ht (List.not_mem_nil t))

/-- C4: interleaving evidence against the lost-update claim. The
balance used by the debit guard is loaded before the atomic block and
without any row lock (views.py lines 420 and 434), so with the wallet
at balance 100, two concurrent debits of 80 that both load before
either commits BOTH succeed: two DEBIT transactions are appended, the
final balance is 20, and the balance no longer equals the sum of the
signed transaction amounts. The claim says exactly one of the two may
succeed. -/
theorem concurrent_debits_lost_update :
    runRace
      { balance := 100,
        log := [{ id := 0, amount := 100, transaction_type := .CREDIT,
                  description := "", timestamp := 0 }],
        reqA := { amount := 80, phase := .start },
        reqB := { amount := 80, phase := .start } }
      [true, false, true, false] =
      { balance := 20,
        log := [{ id := 0, amount := 100, transaction_type := .CREDIT,
                  description := "", timestamp := 0 },
                { id := 1, amount := 80, transaction_type := .DEBIT,
                  description := "", timestamp := 0 },
                { id := 2, amount := 80, transaction_type := .DEBIT,
                  description := "", timestamp := 0 }],
        reqA := { amount := 80, phase := .finished true },
        reqB := { amount := 80, phase := .finished true } } ∧
    logSum [{ id := 0, amount := 100, transaction_type := .CREDIT,
              description := "", timestamp := 0 },
            { id := 1, amount := 80, transaction_type := .DEBIT,
              description := "", timestamp := 0 },
            { id := 2, amount := 80, transaction_type := .DEBIT,
              description := "", timestamp := 0 }] ≠ 20 := by
  constructor
  · norm_num [runRace, stepRace, stepRequest, List.foldl]
  · norm_num [logSum, signedAmount]

/-- C5: the summary totals (credits, debits, net) and the total
transaction count are computed over the full unfiltered log; they are
invariant under the type filter and limit parameters, while
filtered_count counts exactly the entries returned after filter and
limit. -/
theorem summary_totals_unfiltered (log : List Txn) (tt1 tt2 : String)
    (lp1 lp2 : LimitParam) :
    (getTransactions log tt1 lp1).1.total_credits = creditTotal log ∧
    (getTransactions log tt1 lp1).1.total_debits = debitTotal log ∧
    (getTransactions log tt1 lp1).1.net_balance = creditTotal log - debitTotal log ∧
    (getTransactions log tt1 lp1).1.total_transactions = log.length ∧
    (getTransactions log tt1 lp1).1.total_credits =
      (getTransactions log tt2 lp2).1.total_credits ∧
    (getTransactions log tt1 lp1).1.total_debits =
      (getTransactions log tt2 lp2).1.total_debits ∧
    (getTransactions log tt1 lp1).1.net_balance =
      (getTransactions log tt2 lp2).1.net_balance ∧
    (getTransactions log tt1 lp1).1.total_transactions =
      (getTransactions log tt2 lp2).1.total_transactions ∧
    (getTransactions log tt1 lp1).1.filtered_count =
      (getTransactions log tt1 lp1).2.length := by
  have hc : ∀ (tt : String) (lp : LimitParam),
      (getTransactions log tt lp).1.total_credits = creditTotal log := by
    intro tt lp
    simp only [getTransactions]
    exact creditTotal_perm (sortNewestFirst_perm log)
  have hd : ∀ (tt : String) (lp : LimitParam),
      (getTransactions log tt lp).1.total_debits = debitTotal log := by
    intro tt lp
    simp only [getTransactions]
    exact debitTotal_perm (sortNewestFirst_perm log)
  have hn : ∀ (tt : String) (lp : LimitParam),
      (getTransactions log tt lp).1.net_balance = creditTotal log - debitTotal log := by
    intro tt lp
    simp only [getTransactions]
    rw [creditTotal_perm (sortNewestFirst_perm log), debitTotal_perm (sortNewestFirst_perm log)]
  have ht : ∀ (tt : String) (lp : LimitParam),
      (getTransactions log tt lp).1.total_transactions = log.length := by
    intro tt lp
    simp only [getTransactions]
    exact (sortNewestFirst_perm log).length_eq
  exact ⟨hc tt1 lp1, hd tt1 lp1, hn tt1 lp1, ht tt1 lp1,
    (hc tt1 lp1).trans (hc tt2 lp2).symm, (hd tt1 lp1).trans (hd tt2 lp2).symm,
    (hn tt1 lp1).trans (hn tt2 lp2).symm, (ht tt1 lp1).trans (ht tt2 lp2).symm, rfl⟩

/-- C6: a limit parameter that is non-positive or unparsable as an
integer is treated exactly as the default limit 50: the query returns
the same summary and transaction list as with limit 50. -/
theorem limit_default_fallback (log : List Txn) (ttp : String) (n : Int) (h : n ≤ 0) :
    getTransactions log ttp (.intValue n) = getTransactions log ttp (.intValue 50) ∧
    getTransactions log ttp .unparsable = getTransactions log ttp (.intValue 50) := by
  have h50 : effectiveLimit (.intValue 50) = 50 := by norm_num [effectiveLimit]
  have hn : effectiveLimit (.intValue n) = 50 := by simp [effectiveLimit, h]
  have hu : effectiveLimit .unparsable = 50 := rfl
  constructor
  · simp only [getTransactions, hn, h50]
  · simp only [getTransactions, hu, h50]

/-- Witness for the limit fallback at a concrete negative limit. -/
theorem limit_default_fallback_witness :
    getTransactions [] "" (.intValue (-5)) = getTransactions [] "" (.intValue 50) ∧
    getTransactions [] "" .unparsable = getTransactions [] "" (.intValue 50) :=
  limit_default_fallback [] "" (-5) (by norm_num)

/-- C7: crediting a validated amount and then debiting the same amount
on a wallet with non-negative balance returns the balance to its
original value and appends exactly two transactions, a CREDIT followed
by a DEBIT; the log entries present before remain unchanged and the
appended CREDIT entry is unchanged by the debit. -/
theorem credit_then_debit_round_trip (s : LedgerState) (a : Rat) (d1 d2 : String)
    (hv : validateAmount a = true) (hbal : 0 ≤ s.balance) :
    ∃ t1 t2 : Txn,
      (put s a .CREDIT d1).2.log = s.log ++ [t1] ∧
      (put (put s a .CREDIT d1).2 a .DEBIT d2).2.log = s.log ++ [t1, t2] ∧
      (put (put s a .CREDIT d1).2 a .DEBIT d2).2.balance = s.balance ∧
      t1.transaction_type = .CREDIT ∧ t1.amount = a ∧
      t2.transaction_type = .DEBIT ∧ t2.amount = a := by
  have h1 := put_credit_eq s a d1 hv
  have hge : a ≤ (put s a .CREDIT d1).2.balance := by
    rw [h1]
    show a ≤ s.balance + a
    linarith
  have h2 := put_debit_eq (put s a .CREDIT d1).2 a d2 hv hge
  refine ⟨creditTxn s a d1, debitTxn (put s a .CREDIT d1).2 a d2, ?_, ?_, ?_, rfl, rfl, rfl, rfl⟩
  · rw [h1]
  · rw [h2, h1]
    simp [List.append_assoc]
  · rw [h2, h1]
    show s.balance + a - a = s.balance
    exact add_sub_cancel_right s.balance a

/-- Witness for the round trip at a concrete wallet and amount. -/
theorem credit_then_debit_round_trip_witness :
    ∃ t1 t2 : Txn,
      (put initialWallet 100 .CREDIT "x").2.log = initialWallet.log ++ [t1] ∧
      (put (put initialWallet 100 .CREDIT "x").2 100 .DEBIT "y").2.log =
        initialWallet.log ++ [t1, t2] ∧
      (put (put initialWallet 100 .CREDIT "x").2 100 .DEBIT "y").2.balance =
        initialWallet.balance ∧
      t1.transaction_type = .CREDIT ∧ t1.amount = 100 ∧
      t2.transaction_type = .DEBIT ∧ t2.amount = 100 :=
  credit_then_debit_round_trip initialWallet 100 "x" "y"
    ((validateAmount_iff 100).mpr (by norm_num [Rat.den]))
    le_rfl

/-- C8: successful user creation inserts the user row and exactly one
wallet row for that user, with balance 0, in the same unit of work;
every success path of createUser yields the wallet. -/
theorem create_user_creates_wallet (st : RegistryState) (name email phone : String)
    (uid : Nat) (hfresh : ∀ w ∈ st.wallets, w.user_id ≠ uid) (st' : RegistryState)
    (hok : createUser st name email phone uid = some st') :
    ({ id := uid, name := name, email := email, phone := phone } : UserRec) ∈ st'.users ∧
    st'.wallets.filter (fun w => w.user_id == uid) =
      [{ user_id := uid, balance := 0 }] := by
  unfold createUser at hok
  by_cases hdup : st.users.any (fun u => u.email == email) = true
  · rw [if_pos hdup] at hok
    cases hok
  · rw [if_neg hdup] at hok
    have hany : st.wallets.any (fun w => w.user_id == uid) = false := by
      rw [List.any_eq_false]
      intro w hw
      simpa using hfresh w hw
    rw [if_neg (by simp [hany] :
      ¬ (st.wallets.any (fun w => w.user_id == uid) = true))] at hok
    injection hok with hok'
    subst hok'
    constructor
    · simp
    · rw [List.filter_append]
      have h1 : st.wallets.filter (fun w => w.user_id == uid) = [] := by
        rw [List.filter_eq_nil_iff]
        intro w hw
        simpa using hfresh w hw
      rw [h1]
      simp

/-- Witness for user creation at a concrete empty registry. -/
theorem create_user_creates_wallet_witness :
    ({ id := 1, name := "Luv", email := "a@b.com", phone := "+9779812345678" } : UserRec) ∈
      ({ users := [{ id := 1, name := "Luv", email := "a@b.com", phone := "+9779812345678" }],
         wallets := [{ user_id := 1, balance := 0 }] } : RegistryState).users ∧
    ({ users := [{ id := 1, name := "Luv", email := "a@b.com", phone := "+9779812345678" }],
       wallets := [{ user_id := 1, balance := 0 }] } : RegistryState).wallets.filter
        (fun w => w.user_id == 1) = [{ user_id := 1, balance := 0 }] :=
  create_user_creates_wallet { users := [], wallets := [] } "Luv" "a@b.com" "+9779812345678" 1
    (fun w hw => absurd hw (List.not_mem_nil w)) _ rfl

/-- C9 counterexample: with two transactions tied at the same
timestamp, the row order with ids reversed is an admissible result of
the order_by on descending timestamp that the query consumes and (with
no filter and a tie count below the limit) returns as is; it does not
break the tie by insertion (id) order. The code guarantees no id
tie-break, so the claimed tie order is refuted at this input. -/
theorem history_tie_order_counterexample :
    dbOrdering
      [{ id := 1, amount := 5, transaction_type := .CREDIT, description := "", timestamp := 10 },
       { id := 2, amount := 3, transaction_type := .DEBIT, description := "", timestamp := 10 }]
      [{ id := 2, amount := 3, transaction_type := .DEBIT, description := "", timestamp := 10 },
       { id := 1, amount := 5, transaction_type := .CREDIT, description := "", timestamp := 10 }] ∧
    ¬ ([({ id := 2, amount := 3, transaction_type := .DEBIT, description := "", timestamp := 10 } : Txn),
        { id := 1, amount := 5, transaction_type := .CREDIT, description := "", timestamp := 10 }].Pairwise
          newerFirst) := by
  refine ⟨⟨List.Perm.swap _ _ _, ?_⟩, ?_⟩
  · refine List.pairwise_cons.mpr ⟨?_, List.pairwise_singleton _ _⟩
    intro v hv
    rcases List.mem_singleton.mp hv with rfl
    exact le_refl _
  · intro hcontra
    rcases List.pairwise_cons.mp hcontra with ⟨hrel, -⟩
    have hr := hrel _ (List.mem_singleton_self _)
    simp [newerFirst] at hr

/-- C9 (amended): for every row order the database may return for the
descending-timestamp order_by, the transaction history returned after
filter and limit is ordered newest first chronologically by creation
timestamp; the relative order of transactions with equal timestamps is
unspecified, since the code adds no id tie-break. -/
theorem history_ordered_newest_first (log out : List Txn) (ttp : String) (lp : LimitParam)
    (h : dbOrdering log out) :
    ((getTransactionsFrom out ttp lp).2).Pairwise
      (fun a b => b.timestamp ≤ a.timestamp) := by
  have hsorted := h.2
  simp only [getTransactionsFrom]
  refine List.Pairwise.sublist (List.take_sublist _ _) ?_
  split
  · exact hsorted.filter _
  · exact hsorted

/-- Witness for the amended history ordering at a concrete admissible
ordering with a timestamp tie. -/
theorem history_ordered_newest_first_witness :
    ((getTransactionsFrom
        [{ id := 2, amount := 3, transaction_type := .DEBIT, description := "", timestamp := 10 },
         { id := 1, amount := 5, transaction_type := .CREDIT, description := "", timestamp := 10 }]
        "" .absent).2).Pairwise (fun a b => b.timestamp ≤ a.timestamp) :=
  history_ordered_newest_first
    [{ id := 1, amount := 5, transaction_type := .CREDIT, description := "", timestamp := 10 },
     { id := 2, amount := 3, transaction_type := .DEBIT, description := "", timestamp := 10 }]
    [{ id := 2, amount := 3, transaction_type := .DEBIT, description := "", timestamp := 10 },
     { id := 1, amount := 5, transaction_type := .CREDIT, description := "", timestamp := 10 }]
    "" .absent
    ⟨List.Perm.swap _ _ _,
      List.pairwise_cons.mpr ⟨fun v hv => by
          rcases List.mem_singleton.mp hv with rfl
          exact le_refl _,
        List.pairwise_singleton _ _⟩⟩

/-- C10: an amount passes validation exactly when it lies between 0.01
and 10000.00 inclusive and has at most 2 decimal places; any rejected
amount, in particular any amount above the 10000.00 ceiling, makes the
request fail as a validation error with the wallet state unchanged. -/
theorem amount_validation_bounds (v : Rat) (s : LedgerState) (tt : TxnType) (d : String) :
    (validateAmount v = true ↔ 0.01 ≤ v ∧ v ≤ 10000.00 ∧ (v * 100).den = 1) ∧
    (validateAmount v = false → put s v tt d = (.invalidRequest, s)) := by
  refine ⟨validateAmount_iff v, ?_⟩
  intro hf
  unfold put
  rw [if_neg (by simp [hf])]

/-- Witness: 10000.01 exceeds the ceiling, is rejected, and the
request leaves the wallet unchanged. -/
theorem amount_validation_bounds_witness :
    put initialWallet 10000.01 .CREDIT "" = (.invalidRequest, initialWallet) :=
  (amount_validation_bounds 10000.01 initialWallet .CREDIT "").2
    (Bool.eq_false_iff.mpr (fun h =>
      absurd ((validateAmount_iff 10000.01).mp h).2.1 (by norm_num)))

end WalletSystem
